import Mathlib

/-!
Shallow embedding of the abuse-prevention and cache-coherence core of the
backend-pinmo repository (src/middleware/advancedPostValidation.js and its
TypeScript source, src/utils/cache.ts, src/routes/posts/posts.ts), together
with theorems settling the specification claims about it.

Machine integers are modelled as `Int`/`Nat` (JavaScript timestamps and
lengths stay far below 2^53, where JS number arithmetic is exact).
Strings are modelled as `String`/`List Char`; all inputs considered here are
ASCII, where JavaScript's UTF-16 `.length` and case folding agree with the
character-list model used below.
-/

/-! ## Rate limiting (advancedPostValidation, `rateLimit` and `advancedRateLimit`) -/

/-- Outcome of a middleware invocation: `pass` means `next()` was called,
`reject s m` means the middleware responded with HTTP status `s` and error
message `m`. -/
inductive Verdict where
  | pass : Verdict
  | reject : Nat → String → Verdict
  deriving DecidableEq, Repr

/-- Per-IP state stored in `ipRateLimitMap` (interface `RateLimitEntry` in the
source): a list of request timestamps and a sticky blacklist flag. -/
structure RateLimitEntry where
  attempts : List Int
  blacklisted : Bool
  deriving DecidableEq, Repr

/-- The entry used when an IP is not yet in `ipRateLimitMap`:
`{ attempts: [], blacklisted: false }`. -/
def initialEntry : RateLimitEntry := { attempts := [], blacklisted := false }

/-- One call of `advancedRateLimit` for a given IP, acting on that IP's stored
entry at time `now` (milliseconds).  Mirrors the source: blacklisted entries
are rejected 403 before any other work; otherwise `attempts` is pruned to the
60 000 ms window; if 10 or more remain, the pruned timestamps inside the
300 000 ms violation window are counted, the flag is set when that count
exceeds 50, and the call is rejected 429; otherwise `now` is appended and the
request passes. -/
def advancedRateLimitStep (e : RateLimitEntry) (now : Int) : RateLimitEntry × Verdict :=
  if e.blacklisted then
    (e, Verdict.reject 403 "Access denied")
  else
    let pruned := e.attempts.filter (fun time => now - time < 60 * 1000)
    if pruned.length ≥ 10 then
      let recentViolations := pruned.filter (fun time => now - time < 5 * 60 * 1000)
      if recentViolations.length > 50 then
        ({ attempts := pruned, blacklisted := true },
          Verdict.reject 429 "Rate limit exceeded. Please slow down.")
      else
        ({ attempts := pruned, blacklisted := e.blacklisted },
          Verdict.reject 429 "Rate limit exceeded. Please slow down.")
    else
      ({ attempts := pruned ++ [now], blacklisted := e.blacklisted }, Verdict.pass)

/-- The entry stored for one IP after it has issued requests at the given
sequence of times, starting from the initial (absent) entry. -/
def advancedRateLimitRun (times : List Int) : RateLimitEntry :=
  times.foldl (fun e now => (advancedRateLimitStep e now).1) initialEntry

/-- One call of the per-user content-creation limiter `rateLimit`, acting on
the timestamp list stored for that user in `rateLimitMap` at time `now`.
Returns the new stored list and the verdict.  Mirrors the source: the stored
attempts are filtered to the 15-minute window; if 5 or more remain the call
is rejected 429 and `rateLimitMap` is not written; otherwise `now` is pushed
onto the filtered list and the result is stored. -/
def rateLimitStep (userAttempts : List Int) (now : Int) : List Int × Verdict :=
  let recentAttempts := userAttempts.filter (fun time => now - time < 15 * 60 * 1000)
  if recentAttempts.length ≥ 5 then
    (userAttempts, Verdict.reject 429 "Too many posts. Please wait before submitting again.")
  else
    (recentAttempts ++ [now], Verdict.pass)

/-! ### Rate limiter invariants -/

/-- `advancedRateLimitStep` preserves the invariant that at most 10 timestamps
are stored and the blacklist flag is unset. -/
theorem advancedRateLimitStep_preserves (e : RateLimitEntry) (now : Int)
    (hlen : e.attempts.length ≤ 10) (hbl : e.blacklisted = false) :
    (advancedRateLimitStep e now).1.attempts.length ≤ 10 ∧
      (advancedRateLimitStep e now).1.blacklisted = false := by
  have hfil : (e.attempts.filter (fun time => now - time < 60 * 1000)).length ≤ 10 :=
    le_trans (List.length_filter_le _ _) hlen
  have hviol :
      ((e.attempts.filter (fun time => now - time < 60 * 1000)).filter
          (fun time => now - time < 5 * 60 * 1000)).length ≤ 10 :=
    le_trans (List.length_filter_le _ _) hfil
  unfold advancedRateLimitStep
  rw [hbl]
  simp only [Bool.false_eq_true, if_false]
  by_cases hcap : (e.attempts.filter (fun time => now - time < 60 * 1000)).length ≥ 10
  · have hnot :
        ¬ ((e.attempts.filter (fun time => now - time < 60 * 1000)).filter
            (fun time => now - time < 5 * 60 * 1000)).length > 50 := by omega
    simp only [hcap, if_true, hnot, if_false]
    exact ⟨hfil, trivial⟩
  · simp only [hcap, if_false]
    constructor
    · simp only [List.length_append, List.length_singleton]
      omega
    · trivial

/-- Every state reachable by `advancedRateLimit` from the initial entry keeps
at most 10 stored timestamps and an unset blacklist flag. -/
theorem advancedRateLimitRun_invariant (times : List Int) :
    (advancedRateLimitRun times).attempts.length ≤ 10 ∧
      (advancedRateLimitRun times).blacklisted = false := by
  unfold advancedRateLimitRun
  induction times using List.reverseRecOn with
  | nil => exact ⟨by simp [initialEntry], rfl⟩
  | append_singleton ts t ih =>
    rw [List.foldl_append, List.foldl_cons, List.foldl_nil]
    exact advancedRateLimitStep_preserves _ t ih.1 ih.2

/-! ### Claim theorems for the rate limiters -/

/-- C1: the claim asserts that the blacklisted state is reachable by some
request sequence.  It is not: `advancedRateLimit` prunes `attempts` to the
60-second window before counting violations, and at most 10 timestamps are
ever stored, so the violation count can never exceed 50 and no sequence of
timed requests ever sets the blacklist flag. -/
theorem advancedRateLimit_blacklist_unreachable (times : List Int) :
    (advancedRateLimitRun times).blacklisted = false :=
  (advancedRateLimitRun_invariant times).2

/-- C2: if at least 5 of the user's stored timestamps lie within the last 15
minutes, `rateLimit` rejects with 429 and leaves the stored list untouched
(the attempt is not recorded); otherwise the current time is appended to the
pruned list and the request is admitted. -/
theorem rateLimit_reject_not_recorded (userAttempts : List Int) (now : Int) :
    (5 ≤ userAttempts.countP (fun time => now - time < 15 * 60 * 1000) →
      rateLimitStep userAttempts now =
        (userAttempts, Verdict.reject 429 "Too many posts. Please wait before submitting again.")) ∧
    (userAttempts.countP (fun time => now - time < 15 * 60 * 1000) < 5 →
      rateLimitStep userAttempts now =
        (userAttempts.filter (fun time => now - time < 15 * 60 * 1000) ++ [now], Verdict.pass)) := by
  have hcount :
      (userAttempts.filter (fun time => now - time < 15 * 60 * 1000)).length =
        userAttempts.countP (fun time => now - time < 15 * 60 * 1000) :=
    (List.countP_eq_length_filter _ _).symm
  constructor
  · intro h
    unfold rateLimitStep
    rw [if_pos (by omega)]
  · intro h
    unfold rateLimitStep
    rw [if_neg (by omega)]

/-- C2 witness: a user with 5 timestamps inside the window is rejected and the
stored list is unchanged. -/
theorem rateLimit_reject_not_recorded_witness :
    5 ≤ ([0, 1, 2, 3, 4] : List Int).countP (fun time => (1000 : Int) - time < 15 * 60 * 1000) ∧
      rateLimitStep [0, 1, 2, 3, 4] 1000 =
        ([0, 1, 2, 3, 4], Verdict.reject 429 "Too many posts. Please wait before submitting again.") :=
  ⟨by decide, (rateLimit_reject_not_recorded [0, 1, 2, 3, 4] 1000).1 (by decide)⟩

/-- C6: a blacklisted entry makes every subsequent `advancedRateLimit` call,
at any time, answer 403 "Access denied" before any pruning or counting, and
the stored entry is returned unchanged. -/
theorem advancedRateLimit_blacklisted_fast_path (e : RateLimitEntry) (now : Int)
    (h : e.blacklisted = true) :
    advancedRateLimitStep e now = (e, Verdict.reject 403 "Access denied") := by
  unfold advancedRateLimitStep
  rw [if_pos h]

/-- C6 witness: a concrete blacklisted entry is rejected 403 unchanged. -/
theorem advancedRateLimit_blacklisted_fast_path_witness :
    (RateLimitEntry.mk [5, 6] true).blacklisted = true ∧
      advancedRateLimitStep (RateLimitEntry.mk [5, 6] true) 123456 =
        (RateLimitEntry.mk [5, 6] true, Verdict.reject 403 "Access denied") :=
  ⟨rfl, advancedRateLimit_blacklisted_fast_path (RateLimitEntry.mk [5, 6] true) 123456 rfl⟩

/-- C10: every state of an IP's entry reachable through `advancedRateLimit`
stores at most 10 timestamps: the list is pruned to the 60-second window and
a new timestamp is appended only when fewer than 10 remain. -/
theorem advancedRateLimit_attempts_le_ten (times : List Int) :
    (advancedRateLimitRun times).attempts.length ≤ 10 :=
  (advancedRateLimitRun_invariant times).1

/-! ## Cache layer (src/utils/cache.ts, src/routes/posts/posts.ts) -/

/-- JavaScript `key.startsWith(p)` on the character-list model. -/
def strStartsWith (k p : String) : Bool := p.toList.isPrefixOf k.toList

/-- Substring containment on character lists. -/
def listContainsSub (sub : List Char) : List Char → Bool
  | [] => sub.isEmpty
  | c :: cs => sub.isPrefixOf (c :: cs) || listContainsSub sub cs

/-- JavaScript `key.includes(sub)` (substring containment). -/
def strIncludes (k sub : String) : Bool := listContainsSub sub.toList k.toList

/-- `safeGetCache`: `cache.get(key)` either yields a value / a miss
(`Except.ok`) or throws (`Except.error`); the `catch` branch returns `null`,
modelled as `none`.  The function is total: it never throws to its caller. -/
def safeGetCache {V : Type} (op : Except String (Option V)) : Option V :=
  match op with
  | Except.ok v => v
  | Except.error _ => none

/-- `safeSetCache`: `cache.set(key, value, ttl)` either produces an updated
store or throws; the `catch` branch swallows the error, so on a throw the
function returns normally with the store unchanged. -/
def safeSetCache {S : Type} (op : S → Except String S) (store : S) : S :=
  match op store with
  | Except.ok store' => store'
  | Except.error _ => store

/-- `safeDeleteCache`: `cache.del(key)` either returns a deletion count with
the updated store or throws; the `catch` branch returns `0` with the store
unchanged. -/
def safeDeleteCache {S : Type} (op : S → Except String (Nat × S)) (store : S) : Nat × S :=
  match op store with
  | Except.ok r => r
  | Except.error _ => (0, store)

/-- `invalidatePostsCache` from src/utils/cache.ts: deletes every cached key
prefixed `posts:`.  The model maps the list of cached keys to the keys that
remain after the deletions. -/
def invalidatePostsCache (keys : List String) : List String :=
  keys.filter (fun key => ! strStartsWith key "posts:")

/-- `invalidateUserPostsCache userId` from src/utils/cache.ts: deletes keys
that start with `posts:` and contain `user-<userId>` or `:<userId>:`, and
keys starting with `user-posts:<userId>`.  Result = keys remaining. -/
def invalidateUserPostsCache (userId : String) (keys : List String) : List String :=
  keys.filter (fun key =>
    ! ((strStartsWith key "posts:" && strIncludes key ("user-" ++ userId)) ||
       (strStartsWith key "posts:" && strIncludes key (":" ++ userId ++ ":")) ||
       strStartsWith key ("user-posts:" ++ userId)))

/-- `invalidateSinglePostCache postNewId` from src/utils/cache.ts: deletes
keys starting with `post:<postNewId>`, containing `post-<postNewId>`, or
containing `postNewId` anywhere.  Result = keys remaining. -/
def invalidateSinglePostCache (postNewId : String) (keys : List String) : List String :=
  keys.filter (fun key =>
    ! (strStartsWith key ("post:" ++ postNewId) ||
       strIncludes key ("post-" ++ postNewId) ||
       strIncludes key postNewId))

/-- Cache-key effect of a successful post update or delete
(src/routes/posts/posts.ts, PUT and DELETE `/:id`): the handler runs
`invalidatePostsCache()`, `invalidateUserPostsCache(userId)`, and
`invalidateSinglePostCache(post.user_id)` — note the argument is the owner's
user id, which equals `userId` after the ownership check — and then the
`autoInvalidateCache(req => 'posts')` wrapper runs `invalidatePostsCache()`
once more when the success response is sent. -/
def postMutationInvalidation (userId : String) (keys : List String) : List String :=
  invalidatePostsCache
    (invalidateSinglePostCache userId
      (invalidateUserPostsCache userId
        (invalidatePostsCache keys)))

/-! ### Claim theorems for the cache layer -/

/-- C3: the claim says that after a successful update or delete the cache no
longer contains the post's `post:<new_id>` key.  It does: the handlers pass
`post.user_id` (not the post's `new_id`) to `invalidateSinglePostCache`, so
for a post with `new_id` "6f3a" owned by user "u1" the key `post:6f3a`
survives the whole invalidation sequence (while `posts:` and `user-posts:`
keys are removed), and a later read of that post is served from the stale
entry. -/
theorem postMutationInvalidation_misses_single_post_key :
    postMutationInvalidation "u1" ["post:6f3a", "posts:all:page1", "user-posts:u1:recent"] =
      ["post:6f3a"] := by decide

/-- C9: cache failures never become request failures: when the underlying
cache operation throws, `safeGetCache` returns `null` (a miss),
`safeSetCache` returns normally with the store unchanged, and
`safeDeleteCache` returns `0`; all three are total functions, so none ever
propagates an exception to the caller. -/
theorem safeCache_swallows_errors {V S : Type} (e : String) (store : S) :
    safeGetCache (Except.error e : Except String (Option V)) = none ∧
      safeSetCache (fun _ => (Except.error e : Except String S)) store = store ∧
      safeDeleteCache (fun _ => (Except.error e : Except String (Nat × S))) store = (0, store) :=
  ⟨rfl, rfl, rfl⟩

/-! ## Database sanitization (`sanitizeForDatabase`, advancedPostValidation) -/

/-- JavaScript regex `\w` without the unicode flag: `[A-Za-z0-9_]`. -/
def isJsWordChar (c : Char) : Bool := c.isAlphanum || c = '_'

/-- JavaScript regex `\s` / `String.prototype.trim` whitespace, restricted to
its ASCII members (the inputs treated here are ASCII). -/
def isJsWs (c : Char) : Bool :=
  c = ' ' || c = '\t' || c = '\n' || c = '\r' || c = '\x0b' || c = '\x0c'

/-- Case-insensitive prefix test: does `l` start with the (lowercase) pattern
`pat`, comparing characters after ASCII lowercasing? -/
def ciPrefixMatch : List Char → List Char → Bool
  | [], _ => true
  | _ :: _, [] => false
  | p :: ps, c :: cs => (c.toLower = p) && ciPrefixMatch ps cs

/-- The literal scanned for by `.replace(/javascript:/gi, '')`. -/
def jsColonChars : List Char := "javascript:".toList

/-- `.replace(/[<>]/g, '')`: drop every angle-bracket character. -/
def removeAngleBrackets (l : List Char) : List Char :=
  l.filter (fun c => !(c = '<' || c = '>'))

/-- Fuel-indexed scanner for `.replace(/javascript:/gi, '')`: at each
position, delete a case-insensitive occurrence of `javascript:` and continue
after it (non-overlapping, as a global regex replace), else keep the
character.  Every step shortens the list, so fuel = initial length never
runs out and the `0` fallback is unreachable. -/
def removeJsColonAux : Nat → List Char → List Char
  | _, [] => []
  | 0, l => l
  | fuel + 1, c :: cs =>
    if ciPrefixMatch jsColonChars (c :: cs) then
      removeJsColonAux fuel ((c :: cs).drop jsColonChars.length)
    else
      c :: removeJsColonAux fuel cs

/-- `.replace(/javascript:/gi, '')`. -/
def removeJavascriptColon (l : List Char) : List Char := removeJsColonAux l.length l

/-- Length of the match of `/on\w+\s*=/i` anchored at the head of `l`, if
any: `o`/`n` case-insensitively, a maximal nonempty run of word characters,
a maximal run of whitespace, then `=`.  (The regex engine cannot backtrack
into a shorter `\w+` or `\s*` here, since the follow-up characters cannot
overlap those classes, so the greedy match is the only one.) -/
def onAttrMatchLen (l : List Char) : Option Nat :=
  match l with
  | c1 :: c2 :: rest =>
    if c1.toLower = 'o' && c2.toLower = 'n' then
      if (rest.takeWhile isJsWordChar).isEmpty then none
      else
        match (rest.dropWhile isJsWordChar).dropWhile isJsWs with
        | '=' :: _ =>
          some (2 + (rest.takeWhile isJsWordChar).length +
            ((rest.dropWhile isJsWordChar).takeWhile isJsWs).length + 1)
        | _ => none
    else none
  | _ => none

/-- Fuel-indexed scanner for `.replace(/on\w+\s*=/gi, '')`: at each position,
delete a match and continue after it (non-overlapping), else keep the
character.  Every step shortens the list, so fuel = initial length never
runs out and the `0` fallback is unreachable (a match has length ≥ 4). -/
def removeOnAttrAux : Nat → List Char → List Char
  | _, [] => []
  | 0, l => l
  | fuel + 1, c :: cs =>
    match onAttrMatchLen (c :: cs) with
    | some k => removeOnAttrAux fuel ((c :: cs).drop k)
    | none => c :: removeOnAttrAux fuel cs

/-- `.replace(/on\w+\s*=/gi, '')`. -/
def removeOnAttr (l : List Char) : List Char := removeOnAttrAux l.length l

/-- `.replace(/['"]/g, '')`: drop every quote character. -/
def removeQuoteChars (l : List Char) : List Char :=
  l.filter (fun c => !(c = '\'' || c = '"'))

/-- Leading-whitespace part of `.trim()`. -/
def jsTrimLeft (l : List Char) : List Char := l.dropWhile isJsWs

/-- Trailing-whitespace part of `.trim()`. -/
def jsTrimRight (l : List Char) : List Char := (l.reverse.dropWhile isJsWs).reverse

/-- JavaScript `.trim()` on the character-list model. -/
def jsTrim (l : List Char) : List Char := jsTrimRight (jsTrimLeft l)

/-- The sanitization pipeline of `sanitizeForDatabase` on character lists, in
source order: strip `<`/`>`, strip `javascript:`, strip `on\w+\s*=`, strip
quotes, trim. -/
def sanitizeListForDatabase (l : List Char) : List Char :=
  jsTrim (removeQuoteChars (removeOnAttr (removeJavascriptColon (removeAngleBrackets l))))

/-- `sanitizeForDatabase` from advancedPostValidation (string input case; a
non-string input is returned unchanged by the source and is outside this
model). -/
def sanitizeForDatabase (s : String) : String :=
  String.mk (sanitizeListForDatabase s.toList)

/-- Does `l` contain a case-insensitive occurrence of `javascript:`? -/
def hasJsColonSub : List Char → Bool
  | [] => false
  | c :: cs => ciPrefixMatch jsColonChars (c :: cs) || hasJsColonSub cs

/-- Does `l` contain a match of `/on\w+\s*=/i` at any position? -/
def hasOnAttrPattern : List Char → Bool
  | [] => false
  | c :: cs => (onAttrMatchLen (c :: cs)).isSome || hasOnAttrPattern cs

/-- A removable fragment: an angle bracket, a quote character, a
`javascript:` occurrence, or an `on<word>=` pattern — exactly the things a
further `sanitizeForDatabase` pass would strip. -/
def containsRemovableFragment (l : List Char) : Bool :=
  l.any (fun c => c = '<' || c = '>' || c = '\'' || c = '"') ||
    hasJsColonSub l || hasOnAttrPattern l

/-! ### Sanitizer lemmas -/

theorem dropWhile_dropWhile (p : Char → Bool) (l : List Char) :
    (l.dropWhile p).dropWhile p = l.dropWhile p := by
  induction l with
  | nil => rfl
  | cons a t ih =>
    by_cases h : p a
    · simp [List.dropWhile_cons, h, ih]
    · simp [List.dropWhile_cons, h]

theorem dropWhile_suffix (p : Char → Bool) (l : List Char) : l.dropWhile p <:+ l := by
  induction l with
  | nil => exact List.suffix_refl _
  | cons a t ih =>
    by_cases h : p a
    · rw [List.dropWhile_cons, if_pos h]
      exact ih.trans (List.suffix_cons a t)
    · rw [List.dropWhile_cons, if_neg h]

theorem jsTrimRight_prefix (l : List Char) : jsTrimRight l <+: l := by
  obtain ⟨u, hu⟩ := dropWhile_suffix isJsWs l.reverse
  exact ⟨u.reverse, by
    unfold jsTrimRight
    rw [← List.reverse_append, hu, List.reverse_reverse]⟩

theorem jsTrimRight_idem (l : List Char) : jsTrimRight (jsTrimRight l) = jsTrimRight l := by
  unfold jsTrimRight
  rw [List.reverse_reverse, dropWhile_dropWhile]

theorem jsTrimLeft_idem (l : List Char) : jsTrimLeft (jsTrimLeft l) = jsTrimLeft l :=
  dropWhile_dropWhile isJsWs l

theorem jsTrimLeft_jsTrimRight (l : List Char) (h : jsTrimLeft l = l) :
    jsTrimLeft (jsTrimRight l) = jsTrimRight l := by
  cases l with
  | nil => rfl
  | cons a t =>
    have ha : isJsWs a = false := by
      by_contra hcontra
      have ha' : isJsWs a = true := by
        cases hh : isJsWs a
        · exact absurd hh hcontra
        · rfl
      rw [jsTrimLeft, List.dropWhile_cons, if_pos ha'] at h
      have := congrArg List.length h
      have hle := (dropWhile_suffix isJsWs t).length_le
      simp only [List.length_cons] at this
      omega
    obtain ⟨r, hr⟩ := jsTrimRight_prefix (a :: t)
    cases hy : jsTrimRight (a :: t) with
    | nil => rfl
    | cons b u =>
      rw [hy] at hr
      have hb : b = a := by
        rw [List.cons_append] at hr
        exact (List.cons.injEq _ _ _ _ ▸ hr).1
      rw [jsTrimLeft, List.dropWhile_cons, hb, if_neg (by rw [ha]; exact Bool.false_ne_true)]

theorem jsTrim_idem (l : List Char) : jsTrim (jsTrim l) = jsTrim l := by
  unfold jsTrim
  rw [jsTrimLeft_jsTrimRight _ (jsTrimLeft_idem l), jsTrimRight_idem]

theorem removeJsColonAux_eq_self (fuel : Nat) (l : List Char)
    (h : hasJsColonSub l = false) : removeJsColonAux fuel l = l := by
  induction fuel generalizing l with
  | zero => cases l <;> rfl
  | succ n ih =>
    cases l with
    | nil => rfl
    | cons c cs =>
      simp only [hasJsColonSub, Bool.or_eq_false_iff] at h
      rw [removeJsColonAux, if_neg (by rw [h.1]; exact Bool.false_ne_true), ih cs h.2]

theorem removeOnAttrAux_eq_self (fuel : Nat) (l : List Char)
    (h : hasOnAttrPattern l = false) : removeOnAttrAux fuel l = l := by
  induction fuel generalizing l with
  | zero => cases l <;> rfl
  | succ n ih =>
    cases l with
    | nil => rfl
    | cons c cs =>
      simp only [hasOnAttrPattern, Bool.or_eq_false_iff] at h
      cases hm : onAttrMatchLen (c :: cs) with
      | some k =>
        rw [hm] at h
        exact absurd h.1 (by simp)
      | none =>
        simp only [removeOnAttrAux, hm]
        rw [ih cs h.2]

/-- C5's amended statement at the list level: one more sanitization pass is
the identity on any output free of removable fragments. -/
theorem sanitizeList_idem_of_fragment_free (l : List Char)
    (h : containsRemovableFragment (sanitizeListForDatabase l) = false) :
    sanitizeListForDatabase (sanitizeListForDatabase l) = sanitizeListForDatabase l := by
  simp only [containsRemovableFragment, Bool.or_eq_false_iff, List.any_eq_false] at h
  obtain ⟨⟨hchars, hjs⟩, hon⟩ := h
  have h1 : removeAngleBrackets (sanitizeListForDatabase l) = sanitizeListForDatabase l := by
    apply List.filter_eq_self.mpr
    intro c hc
    have h0 := hchars c hc
    simp only [Bool.or_eq_true, decide_eq_true_eq, not_or] at h0
    obtain ⟨⟨⟨hlt, hgt⟩, hq1⟩, hq2⟩ := h0
    simp only [Bool.not_eq_true', Bool.or_eq_false_iff, decide_eq_false_iff_not]
    exact ⟨hlt, hgt⟩
  have h4 : removeQuoteChars (sanitizeListForDatabase l) = sanitizeListForDatabase l := by
    apply List.filter_eq_self.mpr
    intro c hc
    have h0 := hchars c hc
    simp only [Bool.or_eq_true, decide_eq_true_eq, not_or] at h0
    obtain ⟨⟨⟨hlt, hgt⟩, hq1⟩, hq2⟩ := h0
    simp only [Bool.not_eq_true', Bool.or_eq_false_iff, decide_eq_false_iff_not]
    exact ⟨hq1, hq2⟩
  have h5 : jsTrim (sanitizeListForDatabase l) = sanitizeListForDatabase l := by
    unfold sanitizeListForDatabase
    exact jsTrim_idem _
  conv_lhs => rw [sanitizeListForDatabase]
  rw [h1, removeJavascriptColon, removeJsColonAux_eq_self _ _ hjs,
    removeOnAttr, removeOnAttrAux_eq_self _ _ hon, h4, h5]

/-! ### Claim theorems for `sanitizeForDatabase` -/

/-- C5 counterexample: sanitization is not idempotent.  On
`"java'script:"` the quote-removal stage (which runs after the
`javascript:`-removal stage) reassembles the string `javascript:`, which the
first pass therefore leaves in its output and a second pass strips. -/
theorem sanitizeForDatabase_not_idempotent :
    sanitizeForDatabase (sanitizeForDatabase "java'script:") ≠
      sanitizeForDatabase "java'script:" := by decide

/-- C5 amended: `sanitizeForDatabase` is idempotent on every input whose
first sanitization pass leaves no removable fragment (no angle bracket, no
case-insensitive `javascript:` occurrence, no `on<word>=` pattern, no quote
character); in general a removal stage can reassemble a fragment handled by
an earlier stage, so idempotence fails (see the counterexample). -/
theorem sanitizeForDatabase_idem_of_fragment_free (s : String)
    (h : containsRemovableFragment (sanitizeForDatabase s).toList = false) :
    sanitizeForDatabase (sanitizeForDatabase s) = sanitizeForDatabase s :=
  congrArg String.mk (sanitizeList_idem_of_fragment_free s.toList h)

/-- C5 witness: the spec's round-trip example `<script>alert(1)</script>`
sanitizes to a fragment-free string, on which a second pass is the
identity. -/
theorem sanitizeForDatabase_idem_of_fragment_free_witness :
    containsRemovableFragment (sanitizeForDatabase "<script>alert(1)</script>").toList = false ∧
      sanitizeForDatabase (sanitizeForDatabase "<script>alert(1)</script>") =
        sanitizeForDatabase "<script>alert(1)</script>" :=
  ⟨by decide, sanitizeForDatabase_idem_of_fragment_free "<script>alert(1)</script>" (by decide)⟩

/-! ## Moderation pipeline (`validateContent`, `validateImages`)

The four `sexualContentPatterns` and three `maliciousUrlPatterns` are
module-level `RegExp` literals carrying the `g` flag, so each keeps a
mutable `lastIndex` across invocations of `pattern.test(...)`.  The regexes
are transcribed into a small AST (case-insensitive literals, `\s*`, `\b`,
`$`, alternation, sequencing) with JavaScript matching semantics: candidate
ends are produced in the engine's preference order (alternatives in written
order, `\s*` greedy), and `test` scans start positions from `lastIndex`
upward, setting `lastIndex` to the match end on success and to 0 on
failure. -/

inductive RE where
  | lit : List Char → RE
  | wsStar : RE
  | wb : RE
  | eos : RE
  | alt : RE → RE → RE
  | seq : RE → RE → RE
  deriving Repr

/-- Is the character at position `i` (0-based) a `\w` character?  Out of
range counts as no. -/
def wordCharAt (s : List Char) (i : Nat) : Bool :=
  match s.drop i with
  | c :: _ => isJsWordChar c
  | [] => false

/-- JavaScript `\b`: a word boundary sits at position `i` when exactly one of
the characters around it is a `\w` character. -/
def boundaryAt (s : List Char) (i : Nat) : Bool :=
  (match i with
    | 0 => false
    | j + 1 => wordCharAt s j) != wordCharAt s i

/-- Case-insensitive literal at position `i`: end position on success. -/
def ciLitAt (lit : List Char) (s : List Char) (i : Nat) : Option Nat :=
  if ciPrefixMatch lit (s.drop i) then some (i + lit.length) else none

/-- Length of the whitespace run starting at position `i`. -/
def wsCount (s : List Char) (i : Nat) : Nat := ((s.drop i).takeWhile isJsWs).length

/-- All candidate end positions of a match of `r` anchored at position `i`,
in the engine's preference order. -/
def reEnds : RE → List Char → Nat → List Nat
  | RE.lit l, s, i =>
    match ciLitAt l s i with
    | some j => [j]
    | none => []
  | RE.wsStar, s, i => (List.range (wsCount s i + 1)).reverse.map (fun k => i + k)
  | RE.wb, s, i => if boundaryAt s i then [i] else []
  | RE.eos, s, i => if i = s.length then [i] else []
  | RE.alt a b, s, i => reEnds a s i ++ reEnds b s i
  | RE.seq a b, s, i => (reEnds a s i).flatMap (fun j => reEnds b s j)

/-- JavaScript `pattern.test(s)` for a `g`-flagged pattern with the given
`lastIndex`: returns the boolean result and the updated `lastIndex`. -/
def regexTest (r : RE) (s : List Char) (lastIndex : Nat) : Bool × Nat :=
  match ((List.range (s.length + 1)).drop lastIndex).findSome?
      (fun i => (reEnds r s i).head?) with
  | some j => (true, j)
  | none => (false, 0)

/-- A whole word alternative. -/
def reWord (w : String) : RE := RE.lit w.toList

/-- `w1\s*w2` (two literals joined by `\s*`). -/
def rePhrase (w1 w2 : String) : RE :=
  RE.seq (RE.lit w1.toList) (RE.seq RE.wsStar (RE.lit w2.toList))

/-- Alternation of a nonempty list, in written order (the `[]` case is
unused). -/
def reAlts : List RE → RE
  | [] => RE.eos
  | [r] => r
  | r :: rs => RE.alt r (reAlts rs)

/-- `\b(...)\b` around an alternative group. -/
def wordBounded (r : RE) : RE := RE.seq RE.wb (RE.seq r RE.wb)

/-- The four module-level `sexualContentPatterns` regexes, in source order. -/
def sexualContentPatterns : List RE :=
  [wordBounded (reAlts (["sex", "porn", "xxx", "nude", "naked", "breast", "penis",
      "vagina", "fuck", "orgasm"].map reWord)),
   wordBounded (reAlts [reWord "hookup", reWord "horny", reWord "sexy",
      rePhrase "hot" "girl", rePhrase "hot" "guy", reWord "escort", reWord "massage"]),
   wordBounded (reAlts [reWord "dating", reWord "single", reWord "lonely",
      rePhrase "call" "me", rePhrase "dm" "me"]),
   wordBounded (reAlts (["kantot", "chupa", "jakol", "tamod", "titi", "puke",
      "suso", "libog"].map reWord))]

/-- The three module-level `maliciousUrlPatterns` regexes, in source order:
two word-bounded alternations and `\.(exe|bat|scr|vbs|jar|com|pif|cmd)(\?|$)`. -/
def maliciousUrlPatterns : List RE :=
  [wordBounded (reAlts (["bit.ly", "tinyurl", "shorturl", "t.co", "goo.gl",
      "ow.ly"].map reWord)),
   wordBounded (reAlts (["download", "click", "free", "win", "prize", "gift",
      "money", "cash"].map reWord)),
   RE.seq (RE.lit ['.'])
     (RE.seq (reAlts (["exe", "bat", "scr", "vbs", "jar", "com", "pif", "cmd"].map reWord))
       (RE.alt (RE.lit ['?']) RE.eos))]

/-- The `blockedDomains` list from the source. -/
def blockedDomains : List String :=
  ["malware-site.com", "phishing-site.net", "spam-domain.org", "bit.ly",
   "tinyurl.com", "0x0.st", "anonfiles.com", "tempmail.org", "guerrillamail.com"]

/-- The `for (const pattern of patterns) if (pattern.test(s)) throw` loop:
patterns are tested in order against their stored `lastIndex`es; the first
hit aborts the loop (later `lastIndex`es stay untouched), a miss resets that
pattern's `lastIndex` to 0 and continues. -/
def runPatternLoop (s : List Char) : List RE → List Nat → Bool × List Nat
  | [], idxs => (false, idxs)
  | p :: ps, idxs =>
    let r := regexTest p s (idxs.headD 0)
    if r.1 then (true, r.2 :: idxs.tail)
    else
      let rest := runPatternLoop s ps idxs.tail
      (rest.1, r.2 :: rest.2)

/-- The mutable `lastIndex` state of the module-level regexes. -/
structure ModState where
  sexualIdx : List Nat
  maliciousIdx : List Nat
  deriving DecidableEq, Repr

/-- All `lastIndex`es are 0 when the module is first loaded. -/
def initialModState : ModState := { sexualIdx := [0, 0, 0, 0], maliciousIdx := [0, 0, 0] }

/-- ASCII lowercasing of a string (`.toLowerCase()`). -/
def strLowerAscii (s : String) : String := String.mk (s.toList.map Char.toLower)

/-- The description half of `validateContent` (run when `description` is
truthy): profanity check, the four stateful sexual-content patterns, the
500-character cap, then the uppercase-ratio rule (`ratio > 0.5` is computed
exactly as `2 * upperCount > length`, which agrees with the source's
floating-point comparison for every realistic length).  The profanity
predicate is the external library check (`leoProfanity.check` /
`filter.isProfane`), a pure stateless function passed as a parameter.
Returns the error (if any) and the updated sexual-pattern `lastIndex`es. -/
def checkDescription (profane : String → Bool) (d : String) (sexualIdx : List Nat) :
    Option (Nat × String) × List Nat :=
  if profane d then
    (some (400, "Content contains inappropriate language. Please modify your description."),
      sexualIdx)
  else
    let r := runPatternLoop d.toList sexualContentPatterns sexualIdx
    if r.1 then
      (some (400, "Content contains inappropriate material. Please modify your description."), r.2)
    else if d.length > 500 then
      (some (400, "Description is too long. Maximum 500 characters allowed."), r.2)
    else if 2 * d.toList.countP Char.isUpper > d.length ∧ d.length > 10 then
      (some (400, "Please avoid excessive use of capital letters."), r.2)
    else
      (none, r.2)

/-- The link half of `validateContent` (run when `link` is truthy):
`validator.isURL` and `new URL(...).hostname` are external pure library
calls passed as parameters (`hostnameOf` returns `none` when the `URL`
constructor throws); the three stateful malicious-URL patterns and the
blocked-domain substring check mirror the source. -/
def checkLink (isURL : String → Bool) (hostnameOf : String → Option String)
    (l : String) (maliciousIdx : List Nat) : Option (Nat × String) × List Nat :=
  if ¬ isURL l then
    (some (400, "Invalid URL format. Please provide a valid HTTP/HTTPS URL."), maliciousIdx)
  else
    let r := runPatternLoop l.toList maliciousUrlPatterns maliciousIdx
    if r.1 then
      (some (400, "Suspicious URL detected. Please use direct links only."), r.2)
    else
      match hostnameOf l with
      | none => (some (400, "Invalid URL format."), r.2)
      | some h =>
        if blockedDomains.any (fun dom => strIncludes (strLowerAscii h) dom) then
          (some (400, "This domain is not allowed. Please use a different link."), r.2)
        else
          (none, r.2)

/-- `validateContent`: the description checks run first (when `description`
is truthy, i.e. present and nonempty), then the link checks (when `link` is
truthy); the first failure responds 400 with its message, otherwise the
middleware passes.  The pattern `lastIndex` state is threaded through. -/
def validateContent (profane : String → Bool) (isURL : String → Bool)
    (hostnameOf : String → Option String) (description link : Option String)
    (st : ModState) : Verdict × ModState :=
  let dres :=
    match description with
    | some d => if d.length ≠ 0 then checkDescription profane d st.sexualIdx
                else (none, st.sexualIdx)
    | none => (none, st.sexualIdx)
  match dres with
  | (some e, sexualIdx') => (Verdict.reject e.1 e.2, { st with sexualIdx := sexualIdx' })
  | (none, sexualIdx') =>
    let lres :=
      match link with
      | some l => if l.length ≠ 0 then checkLink isURL hostnameOf l st.maliciousIdx
                  else (none, st.maliciousIdx)
      | none => (none, st.maliciousIdx)
    match lres with
    | (some e, maliciousIdx') =>
      (Verdict.reject e.1 e.2, { sexualIdx := sexualIdx', maliciousIdx := maliciousIdx' })
    | (none, maliciousIdx') =>
      (Verdict.pass, { sexualIdx := sexualIdx', maliciousIdx := maliciousIdx' })

/-- The custom `badWords` list added to the profanity filter in the source
(used below to build a concrete profanity predicate for witnesses; the
library's stock dictionary is external to the repository). -/
def badWords : List String :=
  ["putang", "tangina", "gago", "ulol", "bobo", "tanga",
   "leche", "pakyu", "shet", "buwisit", "kupal", "hinayupak",
   "kingina", "tarantado", "peste", "inutil", "walang kwenta",
   "bwakang", "kantot", "chupa", "jakol", "tamod", "titi",
   "puke", "suso", "libog",
   "fuck", "shit", "damn", "bitch", "asshole", "bastard",
   "crap", "piss", "cock", "dick", "pussy", "whore", "slut",
   "motherfucker", "cunt", "fucker", "jackass", "retard", "nigga", "nigger",
   "hoe", "skank", "faggot", "twat", "douche", "dipshit", "bullshit", "hell",
   "prick", "bugger", "suck", "dumbass", "fatass", "shithead", "goddamn",
   "mofo", "jerkoff", "bastardo", "mf", "biatch", "asswipe", "cringeass",
   "licker", "sucker", "nutsack", "nutjob", "crackhead", "trashbag", "smegma",
   "wanker", "git", "bollocks", "bloody", "arsehole"]

/-- Split a character list into its maximal `\w`-runs (words); fuel-indexed,
fuel = length suffices since every step shortens the list. -/
def wordsOfAux : Nat → List Char → List (List Char)
  | _, [] => []
  | 0, _ => []
  | fuel + 1, c :: cs =>
    if isJsWordChar c then
      ((c :: cs).takeWhile isJsWordChar) :: wordsOfAux fuel ((c :: cs).dropWhile isJsWordChar)
    else
      wordsOfAux fuel cs

/-- The words of a string. -/
def wordsOf (l : List Char) : List (List Char) := wordsOfAux l.length l

/-- A concrete pure profanity predicate for witnesses: some lowercased word
of the text is in the custom `badWords` list (word-boundary, case-insensitive
membership, the shape of the library check restricted to the dictionary that
the repository itself installs). -/
def checkBadWords (s : String) : Bool :=
  (wordsOf (s.toList.map Char.toLower)).any (fun w => badWords.any (fun b => b.toList = w))

/-! ### Image validation (`validateImages`) -/

/-- A multer upload as seen by `validateImages`: original filename, declared
content type, size in bytes. -/
structure UploadFile where
  originalname : String
  mimetype : String
  size : Nat
  deriving DecidableEq, Repr

/-- The allowed image extensions from the source. -/
def allowedExtensions : List String := [".jpg", ".jpeg", ".png", ".gif", ".webp"]

/-- Index of the last `.` in the list, if any (`lastIndexOf('.')`). -/
def lastDotIdx (l : List Char) : Option Nat :=
  match l.reverse.findIdx? (fun c => c = '.') with
  | some k => some (l.length - 1 - k)
  | none => none

/-- `image.originalname.toLowerCase().substring(image.originalname.lastIndexOf('.'))`:
the lowercased tail from the last dot on; when there is no dot,
`lastIndexOf` returns -1 and `substring` clamps it to 0, yielding the whole
lowercased name. -/
def fileExtensionOf (name : String) : String :=
  let low := name.toList.map Char.toLower
  match lastDotIdx low with
  | some i => String.mk (low.drop i)
  | none => String.mk low

/-- The two per-call suspicious-filename regexes
`/\.(exe|bat|scr|vbs|jar|com|pif|cmd)$/gi` and `/\.(php|jsp|asp|aspx)$/gi`
(local arrays, so fresh `lastIndex = 0` on every call): a case-insensitive
suffix test. -/
def suspiciousFileName (name : String) : Bool :=
  let low := name.toList.map Char.toLower
  (["exe", "bat", "scr", "vbs", "jar", "com", "pif", "cmd",
    "php", "jsp", "asp", "aspx"]).any
    (fun ext => ('.' :: ext.toList).isSuffixOf low)

/-- The per-file checks of `validateImages`, in source order: size cap (5 MiB,
inclusive), image content type, allowed extension, suspicious filename. -/
def validateOneImage (f : UploadFile) : Option (Nat × String) :=
  if f.size > 5 * 1024 * 1024 then
    some (400, "Image file too large. Maximum 5MB allowed.")
  else if ¬ strStartsWith f.mimetype "image/" then
    some (400, "Invalid file type. Only images are allowed.")
  else if ¬ allowedExtensions.contains (fileExtensionOf f.originalname) then
    some (400, "Invalid image format. Allowed: JPG, PNG, GIF, WebP")
  else if suspiciousFileName f.originalname then
    some (400, "Suspicious file name detected.")
  else
    none

/-- `validateImages`: the `images` and `custom_pin` uploads are concatenated
and checked in order; the first failing file's error is the response,
otherwise the middleware passes (also when there are no files). -/
def validateImages (images customPin : List UploadFile) : Verdict :=
  match (images ++ customPin).findSome? validateOneImage with
  | some e => Verdict.reject e.1 e.2
  | none => Verdict.pass

/-! ### Claim theorems for the moderation pipeline -/

/-- C4: the claim says the moderation verdict is a function of the input
alone.  It is not: the module-level patterns carry `lastIndex` across calls
(`g` flag), so with the description "dating" (no link) the first call
matches the third sexual-content pattern and rejects 400, while the second
call on the identical input resumes that pattern at `lastIndex = 6`, finds
no match, and passes.  (The profanity predicate is instantiated with the
repository's own word list; "dating" is in no profanity dictionary.) -/
theorem validateContent_not_deterministic :
    (validateContent checkBadWords (fun _ => false) (fun _ => none)
        (some "dating") none initialModState).1 =
      Verdict.reject 400 "Content contains inappropriate material. Please modify your description." ∧
    (validateContent checkBadWords (fun _ => false) (fun _ => none) (some "dating") none
        (validateContent checkBadWords (fun _ => false) (fun _ => none)
          (some "dating") none initialModState).2).1 =
      Verdict.pass := by decide

/-- C7: for a description that passes the profanity, sexual-content (at
module load, all `lastIndex`es 0) and uppercase-ratio rules and comes with
no link, `validateContent` accepts at exactly 500 characters and rejects 501
or more with 400 "Description is too long. Maximum 500 characters allowed."
(the length cap is inclusive at 500). -/
theorem validateContent_description_length_boundary
    (profane : String → Bool) (isURL : String → Bool)
    (hostnameOf : String → Option String) (d : String)
    (hprof : profane d = false)
    (hsex : (runPatternLoop d.toList sexualContentPatterns initialModState.sexualIdx).1 = false)
    (hcaps : 2 * d.toList.countP Char.isUpper ≤ d.length) :
    (d.length = 500 →
      (validateContent profane isURL hostnameOf (some d) none initialModState).1 =
        Verdict.pass) ∧
    (500 < d.length →
      (validateContent profane isURL hostnameOf (some d) none initialModState).1 =
        Verdict.reject 400 "Description is too long. Maximum 500 characters allowed.") := by
  constructor
  · intro hlen
    have hne : d.length ≠ 0 := by omega
    have hlong : ¬ d.length > 500 := by omega
    have hcap2 : ¬ (2 * d.toList.countP Char.isUpper > d.length ∧ d.length > 10) := by
      intro hcontra
      omega
    simp only [validateContent, checkDescription, hne, if_true, hprof, Bool.false_eq_true,
      if_false, hsex, hlong, hcap2, ne_eq, not_false_eq_true, ite_true, ite_false]
  · intro hlen
    have hne : d.length ≠ 0 := by omega
    have hlong : d.length > 500 := by omega
    simp only [validateContent, checkDescription, hne, if_true, hprof, Bool.false_eq_true,
      if_false, hsex, hlong, ne_eq, not_false_eq_true, ite_true, ite_false]

set_option maxRecDepth 100000 in
set_option maxHeartbeats 2000000 in
/-- C7 witness: a description of 500 repeated `a` characters is accepted; 501
of them are rejected as too long. -/
theorem validateContent_description_length_boundary_witness :
    (checkBadWords (String.mk (List.replicate 500 'a')) = false ∧
      (validateContent checkBadWords (fun _ => false) (fun _ => none)
          (some (String.mk (List.replicate 500 'a'))) none initialModState).1 = Verdict.pass) ∧
    (checkBadWords (String.mk (List.replicate 501 'a')) = false ∧
      (validateContent checkBadWords (fun _ => false) (fun _ => none)
          (some (String.mk (List.replicate 501 'a'))) none initialModState).1 =
        Verdict.reject 400 "Description is too long. Maximum 500 characters allowed.") :=
  ⟨⟨by decide,
    (validateContent_description_length_boundary checkBadWords (fun _ => false) (fun _ => none)
      (String.mk (List.replicate 500 'a')) (by decide) (by decide) (by decide)).1 (by decide)⟩,
   ⟨by decide,
    (validateContent_description_length_boundary checkBadWords (fun _ => false) (fun _ => none)
      (String.mk (List.replicate 501 'a')) (by decide) (by decide) (by decide)).2 (by decide)⟩⟩

/-- C8: for an attached image whose content type, extension and filename
checks pass, `validateImages` accepts at exactly 5 MiB (5 * 1024 * 1024 =
5242880 bytes) and rejects any strictly larger file with 400 "Image file too
large. Maximum 5MB allowed." (the bound is ≤, not <). -/
theorem validateImages_size_boundary (f : UploadFile)
    (hmime : strStartsWith f.mimetype "image/" = true)
    (hext : allowedExtensions.contains (fileExtensionOf f.originalname) = true)
    (hname : suspiciousFileName f.originalname = false) :
    (f.size ≤ 5 * 1024 * 1024 → validateImages [f] [] = Verdict.pass) ∧
    (5 * 1024 * 1024 < f.size →
      validateImages [f] [] =
        Verdict.reject 400 "Image file too large. Maximum 5MB allowed.") := by
  constructor
  · intro hsize
    have hbig : ¬ f.size > 5 * 1024 * 1024 := by omega
    simp only [validateImages, List.append_nil, List.findSome?_cons, validateOneImage,
      hbig, hmime, hext, hname, Bool.false_eq_true, if_false, not_true_eq_false,
      ite_false, ite_true, List.findSome?_nil]
  · intro hsize
    have hbig : f.size > 5 * 1024 * 1024 := by omega
    simp only [validateImages, List.append_nil, List.findSome?_cons, validateOneImage,
      hbig, ite_true]

/-- C8 witness: `photo.jpg` of type `image/jpeg` passes the non-size checks;
at exactly 5242880 bytes it is accepted, at 5242881 bytes it is rejected as
too large. -/
theorem validateImages_size_boundary_witness :
    (strStartsWith "image/jpeg" "image/" = true ∧
      allowedExtensions.contains (fileExtensionOf "photo.jpg") = true ∧
      suspiciousFileName "photo.jpg" = false) ∧
    validateImages [UploadFile.mk "photo.jpg" "image/jpeg" 5242880] [] = Verdict.pass ∧
    validateImages [UploadFile.mk "photo.jpg" "image/jpeg" 5242881] [] =
      Verdict.reject 400 "Image file too large. Maximum 5MB allowed." :=
  ⟨⟨by decide, by decide, by decide⟩,
   (validateImages_size_boundary (UploadFile.mk "photo.jpg" "image/jpeg" 5242880)
      (by decide) (by decide) (by decide)).1 (by decide),
   (validateImages_size_boundary (UploadFile.mk "photo.jpg" "image/jpeg" 5242881)
      (by decide) (by decide) (by decide)).2 (by decide)⟩
